import Mathlib

/-!
# google-chat-alert: the alert forwarder of `function.go`

A shallow embedding of `formatMessage`, `MESSAGE_TEMPLATE` and the handler
`googleChatAlert`, together with the parts of the Go standard library they
call (`strings.Replacer`, `time.Unix(..).Format(..)`, `fmt` verbs), and the
properties of the rendering and of the handler's control flow.

A Go `string` is modelled by a Lean `String`.  The template and the five
placeholders are ASCII, so byte offsets and character offsets coincide on the
text the replacer scans.
-/

namespace GoogleChatAlert

/-! ## Data model (`function.go`, the `type` declarations) -/

/-- The Go struct `eventData`: the payload bytes of the Pub/Sub message. -/
structure eventData where
  Data : String
deriving DecidableEq

/-- The Go struct `messageData`. -/
structure messageData where
  Message : eventData
deriving DecidableEq

/-- The Go struct `documentation`. -/
structure documentation where
  Content : String
deriving DecidableEq

/-- The Go struct `incident`; `StartedAt` is an `int64` (Unix seconds). -/
structure incident where
  PolicyName : String
  IncidentID : String
  Documentation : documentation
  State : String
  Url : String
  StartedAt : Int
deriving DecidableEq

/-- The Go struct `messagePayload`. -/
structure messagePayload where
  Incident : incident
deriving DecidableEq

/-- The Go struct `googleChatError`; `Code` is a Go `int`. -/
structure googleChatError where
  Code : Int
  Message : String
  Status : String
deriving DecidableEq

/-- The Go struct `googleChatResponse`. -/
structure googleChatResponse where
  Error : googleChatError
deriving DecidableEq

/-- The Go constant `MESSAGE_TEMPLATE` (a raw string literal: the backslashes
are part of the text). -/
def MESSAGE_TEMPLATE : String :=
  "
\x7b
    \"cards\": [
        \x7b
            \"header\": \x7b
                \"title\": \"<users/all> Google Cloud Monitoring Alert\"
            \x7d,
            \"sections\": [
                \x7b
                    \"header\": \"\x7balertName\x7d\",
                    \"widgets\": [
                        \x7b
                            \"textParagraph\": \x7b
                                \"text\": \"<b>Started at:</b> \x7bstartedAt\x7d\"
                            \x7d
                        \x7d,
                    ]
                \x7d,
                \x7b
                    \"header\": \"<b><font color=\\\"#ff0000\\\">Received log</font></b>\",
                    \"widgets\": [
                        \x7b
                            \"textParagraph\": \x7b
                                \"text\": \"\x7blogMessage\x7d\"
                            \x7d
                        \x7d
                    ]
                \x7d,
                \x7b
                    \"widgets\": [
                        \x7b
                            \"keyValue\": \x7b
                                \"topLabel\": \"Status\",
                                \"content\": \"\x7bstatus\x7d\"
                            \x7d
                        \x7d
                    ]
                \x7d,
                \x7b
                    \"widgets\": [
                        \x7b
                            \"buttons\": [
                                \x7b
                                    \"textButton\": \x7b
                                        \"text\": \"GO TO INCIDENT\",
                                        \"onClick\": \x7b
                                            \"openLink\": \x7b
                                                \"url\": \"\x7bincidentURL\x7d\"
                                            \x7d
                                        \x7d
                                    \x7d
                                \x7d
                            ]
                        \x7d
                    ]
                \x7d
            ]
        \x7d
    ]
\x7d
"

/-! ## `strings.Replacer` (Go standard library, generic replacer) -/

/-- The old/new pairs of the variadic argument list of `strings.NewReplacer`,
in argument order. -/
def pairUp : List String → List (String × String)
  | old :: new :: rest => (old, new) :: pairUp rest
  | _ => []

/-- The flat argument list of a list of old/new pairs. -/
def flatten : List (String × String) → List String
  | [] => []
  | (old, new) :: rest => old :: new :: flatten rest

/-- A `*strings.Replacer`: its old/new pairs in argument order (the earlier
pair has the higher priority). -/
structure Replacer where
  oldnew : List (List Char × List Char)

/-- `strings.NewReplacer(oldnew...)`; it panics (`none`) on an odd number of
arguments. -/
def NewReplacer (oldnew : List String) : Option Replacer :=
  if oldnew.length % 2 = 1 then none
  else some ⟨(pairUp oldnew).map (fun p => (p.1.data, p.2.data))⟩

/-- `genericReplacer.lookup(s, ignoreRoot)`: among the old strings that are a
prefix of `s`, the one of highest priority, with its new string and its
length; the empty old string (the root of the trie) is skipped when
`ignoreRoot` is set. -/
def lookup : List (List Char × List Char) → List Char → Bool → Option (List Char × Nat)
  | [], _, _ => none
  | (old, new) :: rest, s, ignoreRoot =>
    if old.isPrefixOf s && !(ignoreRoot && old.isEmpty) then some (new, old.length)
    else lookup rest s ignoreRoot

/-- The scanning loop of `genericReplacer.WriteString`, one call per index
`i` of the input, on the rest `s[i:]` of the input.  `skip` counts the bytes of
the old string matched last that are still ahead (the loop's `i += keylen`).
At an index where the empty old string matches, its new string is written and
the lookup is repeated once with `ignoreRoot` (the loop's `prevMatchEmpty`). -/
def replaceLoop (oldnew : List (List Char × List Char)) : Nat → List Char → List Char
  | _, [] =>
    match lookup oldnew [] false with
    | some (val, _) => val
    | none => []
  | skip + 1, _ :: s => replaceLoop oldnew skip s
  | 0, c :: s =>
    match lookup oldnew (c :: s) false with
    | some (val, keylen + 1) => val ++ replaceLoop oldnew keylen s
    | some (val, 0) =>
      match lookup oldnew (c :: s) true with
      | some (val2, keylen + 1) => val ++ (val2 ++ replaceLoop oldnew keylen s)
      | _ => val ++ c :: replaceLoop oldnew 0 s
    | none => c :: replaceLoop oldnew 0 s

/-- `(*Replacer).Replace(s)`. -/
def Replacer.Replace (r : Replacer) (s : String) : String :=
  ⟨replaceLoop r.oldnew 0 s.data⟩

/-- The Go function `formatMessage(message string, args ...string) string`;
`none` is the panic of `strings.NewReplacer`. -/
def formatMessage (message : String) (args : List String) : Option String :=
  (NewReplacer args).map (fun r => r.Replace message)

/-! ## `time.Unix(sec, 0).Format(layout)` (Go standard library, package `time`) -/

/-- A `*time.Location`, by what `Location.lookup` returns: the offset in
seconds east of UTC in use at a Unix time.  `time.Unix` yields a time in
`time.Local`, the zone of the process. -/
structure Location where
  offset : Int → Int

/-- The location `time.UTC`. -/
def UTC : Location := ⟨fun _ => 0⟩

/-- The Go constant `secondsPerDay`. -/
def secondsPerDay : Nat := 86400

/-- The Go constant `absoluteZeroYear`. -/
def absoluteZeroYear : Int := -292277022399

/-- The Go constant `unixToInternal + internalToAbsolute`. -/
def unixToAbsolute : Int := 62135596800 + 9223371966579724800

/-- `Time.abs()`: the seconds since the absolute zero year of the wall clock
of Unix time `sec` in `loc`, a `uint64`. -/
def Time.abs (loc : Location) (sec : Int) : Nat :=
  ((sec + loc.offset sec + unixToAbsolute) % 2 ^ 64).toNat

/-- The Go function `isLeap`. -/
def isLeap (year : Int) : Bool :=
  year % 4 = 0 && (year % 100 ≠ 0 || year % 400 = 0)

/-- The Go table `daysBefore`. -/
def daysBefore : List Nat := [0, 31, 59, 90, 120, 151, 181, 212, 243, 273, 304, 334, 365]

/-- The Go function `absDate(abs, true)`: year, month (January is 1) and day
of the month. -/
def absDate (abs : Nat) : Int × Nat × Nat :=
  let d := abs / secondsPerDay
  -- 400-year cycles
  let n := d / 146097
  let y := 400 * n
  let d := d - 146097 * n
  -- 100-year cycles
  let n := d / 36524
  let n := n - n / 4
  let y := y + 100 * n
  let d := d - 36524 * n
  -- 4-year cycles
  let n := d / 1461
  let y := y + 4 * n
  let d := d - 1461 * n
  -- years within a 4-year cycle
  let n := d / 365
  let n := n - n / 4
  let y := y + n
  let d := d - 365 * n
  let year : Int := (y : Int) + absoluteZeroYear
  let day := d
  if isLeap year && day = 31 + 29 - 1 then (year, 2, 29)
  else
    let day := if isLeap year && day > 31 + 29 - 1 then day - 1 else day
    let month := day / 31
    let end_ := daysBefore.getD (month + 1) 0
    if day ≥ end_ then (year, month + 2, day - end_ + 1)
    else (year, month + 1, day - daysBefore.getD month 0 + 1)

/-- The Go function `absClock`: hour, minute and second of the day. -/
def absClock (abs : Nat) : Nat × Nat × Nat :=
  let sec := abs % secondsPerDay
  let hour := sec / 3600
  let sec := sec - hour * 3600
  let min := sec / 60
  let sec := sec - min * 60
  (hour, min, sec)

/-- The decimal digit of `d % 10`. -/
def digitChar (d : Nat) : Char :=
  match d % 10 with
  | 0 => '0' | 1 => '1' | 2 => '2' | 3 => '3' | 4 => '4'
  | 5 => '5' | 6 => '6' | 7 => '7' | 8 => '8' | _ => '9'

/-- The decimal digits of `u` in front of `acc`, most significant first;
`fuel` bounds the number of digits. -/
def decimalAux : Nat → Nat → List Char → List Char
  | 0, _, acc => acc
  | fuel + 1, u, acc =>
    if u < 10 then digitChar u :: acc
    else decimalAux fuel (u / 10) (digitChar u :: acc)

/-- The decimal form of a natural number. -/
def decimal (u : Nat) : List Char := decimalAux (u + 1) u []

/-- The Go function `appendInt(b, x, width)` of package `time`: the decimal
form of `x`, after a minus sign when `x` is negative, padded with leading
zeros to `width` digits. -/
def appendInt (x : Int) (width : Nat) : List Char :=
  let ds := decimal x.natAbs
  (if x < 0 then ['-'] else []) ++ List.replicate (width - ds.length) '0' ++ ds

/-- The pieces `nextStdChunk` cuts a layout into. -/
inductive Chunk
  | stdLongYear | stdZeroMonth | stdZeroDay | stdHour | stdZeroMinute | stdZeroSecond
  | literal (text : String)

/-- The layout `"2006-01-02 15:04:05 CET"` of the source as `nextStdChunk`
cuts it: `CET` is no reference-time element (the zone abbreviation of the
reference time is `MST`), so it is copied as it stands. -/
def startedAtLayout : List Chunk :=
  [.stdLongYear, .literal "-", .stdZeroMonth, .literal "-", .stdZeroDay, .literal " ",
   .stdHour, .literal ":", .stdZeroMinute, .literal ":", .stdZeroSecond, .literal " CET"]

/-- What `Time.AppendFormat` appends for one chunk of the layout. -/
def appendChunk (abs : Nat) : Chunk → List Char
  | .stdLongYear => appendInt (absDate abs).1 4
  | .stdZeroMonth => appendInt (absDate abs).2.1 2
  | .stdZeroDay => appendInt (absDate abs).2.2 2
  | .stdHour => appendInt (absClock abs).1 2
  | .stdZeroMinute => appendInt (absClock abs).2.1 2
  | .stdZeroSecond => appendInt (absClock abs).2.2 2
  | .literal text => text.data

/-- `time.Unix(sec, 0).Format("2006-01-02 15:04:05 CET")` in a process whose
`time.Local` is `loc`. -/
def Time.Format (loc : Location) (sec : Int) : String :=
  ⟨startedAtLayout.flatMap (appendChunk (Time.abs loc sec))⟩

/-! ## The handler `googleChatAlert` -/

/-- The slice `argsList` the handler builds from the incident. -/
def argsList (loc : Location) (incident : incident) : List String :=
  ["\x7balertName\x7d", incident.PolicyName,
   "\x7bstartedAt\x7d", Time.Format loc incident.StartedAt,
   "\x7blogMessage\x7d", incident.Documentation.Content,
   "\x7bstatus\x7d", incident.State,
   "\x7bincidentURL\x7d", incident.Url]

/-- The five placeholder tokens of the template. -/
def placeholders : List String :=
  ["\x7balertName\x7d", "\x7bstartedAt\x7d", "\x7blogMessage\x7d", "\x7bstatus\x7d",
   "\x7bincidentURL\x7d"]

/-- The text `fmt` prints for a Go `int` under `%v`. -/
def fmtInt (x : Int) : String := ⟨appendInt x 0⟩

/-- The text `fmt` prints for a `googleChatResponse` under `%v`: the fields
of a struct between braces, separated by a blank. -/
def fmtResponse (res : googleChatResponse) : String :=
  "\x7b\x7b" ++ fmtInt res.Error.Code ++ " " ++ res.Error.Message ++ " " ++ res.Error.Status
    ++ "\x7d\x7d"

/-- What lies outside the program: the process's time zone and the outcome of
each call the handler makes into the event SDK, `encoding/json`, `net/http`
and `io`.  A failed call carries the text of its Go `error`. -/
structure Runtime (Event Response : Type) where
  /-- The location `time.Local`. -/
  Local : Location
  /-- The call `e.DataAs(&msg)`. -/
  DataAs : Event → Except String messageData
  /-- The call `json.Unmarshal(msg.Message.Data, &pld)`. -/
  UnmarshalPayload : String → Except String messagePayload
  /-- The call `http.Post(url, contentType, body)`. -/
  Post : String → String → String → Except String Response
  /-- The call `io.ReadAll(res.Body)`. -/
  ReadAll : Response → Except String String
  /-- The call `json.Unmarshal(resBody, &googleChatRes)`. -/
  UnmarshalResponse : String → Except String googleChatResponse

/-- A call of the handler that reaches the network. -/
inductive Call
  | post (url contentType body : String)
  | readAll
deriving DecidableEq

/-- How an invocation ends: `return nil`, `return fmt.Errorf(..)`, or a
panic. -/
inductive Outcome
  | nil
  | error (text : String)
  | panic
deriving DecidableEq

/-- One invocation: the network calls it made, in order, and how it ended. -/
structure Run where
  calls : List Call
  outcome : Outcome
deriving DecidableEq

/-- The Go function `googleChatAlert(ctx, e)`. -/
def googleChatAlert {Event Response : Type} (rt : Runtime Event Response) (e : Event) : Run :=
  match rt.DataAs e with
  | .error err => ⟨[], .error ("failed to retrieve PubSub message: " ++ err)⟩
  | .ok msg =>
  match rt.UnmarshalPayload msg.Message.Data with
  | .error err => ⟨[], .error ("failed to parse PubSub msg payload: " ++ err)⟩
  | .ok pld =>
  let incident := pld.Incident
  let webhookUrl := "<YOUR WEBHOOK URL>"
  match formatMessage MESSAGE_TEMPLATE (argsList rt.Local incident) with
  | none => ⟨[], .panic⟩
  | some message =>
  match rt.Post webhookUrl "application/json" message with
  | .error err =>
    ⟨[.post webhookUrl "application/json" message],
      .error ("failed to send request to Google Chat: " ++ err)⟩
  | .ok res =>
  match rt.ReadAll res with
  | .error err =>
    ⟨[.post webhookUrl "application/json" message, .readAll],
      .error ("failed to read body: " ++ err)⟩
  | .ok resBody =>
  match rt.UnmarshalResponse resBody with
  | .error err =>
    ⟨[.post webhookUrl "application/json" message, .readAll],
      .error ("failed to unmarshal google chat response: " ++ err ++ ", received: " ++ resBody)⟩
  | .ok googleChatRes =>
  if googleChatRes.Error ≠ ⟨0, "", ""⟩ then
    ⟨[.post webhookUrl "application/json" message, .readAll],
      .error ("received an error response from Google Chat: " ++ fmtResponse googleChatRes)⟩
  else ⟨[.post webhookUrl "application/json" message, .readAll], .nil⟩

/-- The HTTP POSTs among the calls of an invocation: URL, content type and
body of each, in order. -/
def posts : List Call → List (String × String × String)
  | [] => []
  | .post url contentType body :: rest => (url, contentType, body) :: posts rest
  | .readAll :: rest => posts rest

/-! ## Notions the properties are stated with -/

/-- The string `t` occurs in `s` as a substring. -/
def occursIn (t s : String) : Prop := t.data <:+: s.data

instance (t s : String) : Decidable (occursIn t s) := by
  unfold occursIn; infer_instance

/-- The number of indices of `s` at which `t` starts. -/
def occurrences (t : List Char) : List Char → Nat
  | [] => if t.isEmpty then 1 else 0
  | c :: s => (if t.isPrefixOf (c :: s) then 1 else 0) + occurrences t s

/-- The template text between the placeholders: `seg 0` runs up to
`{alertName}`, `seg 1` from there to `{startedAt}`, `seg 2` to `{logMessage}`,
`seg 3` to `{status}`, `seg 4` to `{incidentURL}`, and `seg 5` is the rest. -/
def seg (i : Nat) : String :=
  match i with
  | 0 => ⟨MESSAGE_TEMPLATE.data.take 211⟩
  | 1 => ⟨(MESSAGE_TEMPLATE.data.drop 222).take 169⟩
  | 2 => ⟨(MESSAGE_TEMPLATE.data.drop 402).take 349⟩
  | 3 => ⟨(MESSAGE_TEMPLATE.data.drop 763).take 316⟩
  | 4 => ⟨(MESSAGE_TEMPLATE.data.drop 1087).take 536⟩
  | _ => ⟨MESSAGE_TEMPLATE.data.drop 1636⟩

/-- A piece of scanned input: a character copied as it stands, or the new
string of the pair at an index of the argument list. -/
inductive Piece
  | text (c : Char)
  | slot (i : Nat)
deriving DecidableEq

/-- The index and the length of the old string `lookup` selects. -/
def lookupIdx : List (List Char) → List Char → Bool → Option (Nat × Nat)
  | [], _, _ => none
  | old :: rest, s, ignoreRoot =>
    if old.isPrefixOf s && !(ignoreRoot && old.isEmpty) then some (0, old.length)
    else (lookupIdx rest s ignoreRoot).map (fun p => (p.1 + 1, p.2))

/-- The loop `replaceLoop` with the new strings left symbolic. -/
def scanLoop (olds : List (List Char)) : Nat → List Char → List Piece
  | _, [] =>
    match lookupIdx olds [] false with
    | some (i, _) => [.slot i]
    | none => []
  | skip + 1, _ :: s => scanLoop olds skip s
  | 0, c :: s =>
    match lookupIdx olds (c :: s) false with
    | some (i, keylen + 1) => .slot i :: scanLoop olds keylen s
    | some (i, 0) =>
      match lookupIdx olds (c :: s) true with
      | some (j, keylen + 1) => .slot i :: .slot j :: scanLoop olds keylen s
      | _ => .slot i :: .text c :: scanLoop olds 0 s
    | none => .text c :: scanLoop olds 0 s

/-- The text of a scanned input once the new strings are known. -/
def fill (news : List (List Char)) : List Piece → List Char
  | [] => []
  | .text c :: rest => c :: fill news rest
  | .slot i :: rest => news.getD i [] ++ fill news rest

/-- The five placeholders as old strings, in the order of `argsList`. -/
def templateOlds : List (List Char) := placeholders.map String.data

/-- The text of `seg i` within its delimiters: each placeholder of the
template stands right after a double quote or a blank and right before a
double quote, and `segCore i` is `seg i` without these characters at its
ends. -/
def segCore (i : Nat) : List Char :=
  match i with
  | 0 => (seg 0).data.dropLast
  | 5 => (seg 5).data.tail
  | i => (seg i).data.tail.dropLast

/-- The message the handler renders for an incident, as the template text
between the placeholders with the values in their places. -/
def rendered (loc : Location) (inc : incident) : String :=
  seg 0 ++ inc.PolicyName ++ seg 1 ++ Time.Format loc inc.StartedAt ++ seg 2
    ++ inc.Documentation.Content ++ seg 3 ++ inc.State ++ seg 4 ++ inc.Url ++ seg 5

/-- The characters `Time.Format` can produce for the layout of the source. -/
def isTimeChar (c : Char) : Bool :=
  c.isDigit || c = '-' || c = ':' || c = ' ' || c = 'C' || c = 'E' || c = 'T'

/-- The number a list of decimal digits denotes, given the number `a` denoted
by the digits before it. -/
def decimalValue (a : Nat) : List Char → Nat
  | [] => a
  | c :: s => decimalValue (10 * a + (c.toNat - 48)) s

/-! ## JSON syntax (RFC 8259, as the scanner of Go's `encoding/json` checks it) -/

/-- What an enclosing object or array expects next (the scanner's
`parseState` stack). -/
inductive ParseState
  | parseObjectKey
  | parseObjectValue
  | parseArrayValue
deriving DecidableEq

/-- The scanner's `step`: where in the grammar the next character is read
(`stateBeginValue`, ..., `stateT`, `stateTr`, ..., `stateNul`). -/
inductive Step
  | beginValue | beginValueOrEmpty | beginStringOrEmpty | beginString
  | endValue | endTop
  | inString | inStringEsc | inStringEscU | inStringEscU1 | inStringEscU12 | inStringEscU123
  | neg | one | zero | dot | dot0 | e | eSign | e0
  | t | tr | tru | f | fa | fal | fals | n | nu | nul
deriving DecidableEq

/-- The scanner: its step and its stack of enclosing objects and arrays, the
innermost first.  The step `endTop` is the scanner's `endTop` flag. -/
structure scanner where
  step : Step
  parseState : List ParseState
deriving DecidableEq

/-- The Go function `isSpace`. -/
def isSpace (c : Char) : Bool := c = ' ' || c = '\t' || c = '\r' || c = '\n'

/-- A decimal digit. -/
def isDigit (c : Char) : Bool := '0' ≤ c && c ≤ '9'

/-- A hexadecimal digit. -/
def isHex (c : Char) : Bool :=
  ('0' ≤ c && c ≤ '9') || ('a' ≤ c && c ≤ 'f') || ('A' ≤ c && c ≤ 'F')

/-- `popParseState`: leave the innermost object or array. -/
def popParseState (s : scanner) : scanner :=
  match s.parseState.tail with
  | [] => ⟨.endTop, []⟩
  | rest => ⟨.endValue, rest⟩

/-- `stateEndTop`: only white space may follow the top-level value. -/
def stateEndTop (s : scanner) (c : Char) : Option scanner :=
  if isSpace c then some ⟨.endTop, s.parseState⟩ else none

/-- `stateEndValue`: the character after a value. -/
def stateEndValue (s : scanner) (c : Char) : Option scanner :=
  match s.parseState with
  | [] => stateEndTop s c
  | ps :: rest =>
    if isSpace c then some ⟨.endValue, ps :: rest⟩
    else match ps with
      | .parseObjectKey =>
        if c = ':' then some ⟨.beginValue, .parseObjectValue :: rest⟩ else none
      | .parseObjectValue =>
        if c = ',' then some ⟨.beginString, .parseObjectKey :: rest⟩
        else if c = '\x7d' then some (popParseState s)
        else none
      | .parseArrayValue =>
        if c = ',' then some ⟨.beginValue, ps :: rest⟩
        else if c = ']' then some (popParseState s)
        else none

/-- `stateBeginString`: the opening quote of an object key. -/
def stateBeginString (s : scanner) (c : Char) : Option scanner :=
  if isSpace c then some ⟨.beginString, s.parseState⟩
  else if c = '"' then some ⟨.inString, s.parseState⟩
  else none

/-- `stateBeginValue`: the first character of a value. -/
def stateBeginValue (s : scanner) (c : Char) : Option scanner :=
  if isSpace c then some ⟨.beginValue, s.parseState⟩
  else if c = '\x7b' then some ⟨.beginStringOrEmpty, .parseObjectKey :: s.parseState⟩
  else if c = '[' then some ⟨.beginValueOrEmpty, .parseArrayValue :: s.parseState⟩
  else if c = '"' then some ⟨.inString, s.parseState⟩
  else if c = '-' then some ⟨.neg, s.parseState⟩
  else if c = '0' then some ⟨.zero, s.parseState⟩
  else if c = 't' then some ⟨.t, s.parseState⟩
  else if c = 'f' then some ⟨.f, s.parseState⟩
  else if c = 'n' then some ⟨.n, s.parseState⟩
  else if '1' ≤ c && c ≤ '9' then some ⟨.one, s.parseState⟩
  else none

/-- `state0`: after the integer part of a number. -/
def state0 (s : scanner) (c : Char) : Option scanner :=
  if c = '.' then some ⟨.dot, s.parseState⟩
  else if c = 'e' || c = 'E' then some ⟨.e, s.parseState⟩
  else stateEndValue s c

/-- `stateESign`: after the `e` and the sign of an exponent. -/
def stateESign (s : scanner) (c : Char) : Option scanner :=
  if isDigit c then some ⟨.e0, s.parseState⟩ else none

/-- One call `s.step(s, c)` of the scanner; `none` is `scanError`. -/
def scanner.next (s : scanner) (c : Char) : Option scanner :=
  match s.step with
  | .beginValue => stateBeginValue s c
  | .beginValueOrEmpty =>
    if isSpace c then some s
    else if c = ']' then stateEndValue s c
    else stateBeginValue s c
  | .beginStringOrEmpty =>
    if isSpace c then some s
    else if c = '\x7d' then stateEndValue ⟨s.step, .parseObjectValue :: s.parseState.tail⟩ c
    else stateBeginString s c
  | .beginString => stateBeginString s c
  | .endValue => stateEndValue s c
  | .endTop => stateEndTop s c
  | .inString =>
    if c = '"' then some ⟨.endValue, s.parseState⟩
    else if c = '\\' then some ⟨.inStringEsc, s.parseState⟩
    else if c.toNat < 0x20 then none
    else some s
  | .inStringEsc =>
    if c = 'b' || c = 'f' || c = 'n' || c = 'r' || c = 't' || c = '\\' || c = '/' || c = '"' then
      some ⟨.inString, s.parseState⟩
    else if c = 'u' then some ⟨.inStringEscU, s.parseState⟩
    else none
  | .inStringEscU => if isHex c then some ⟨.inStringEscU1, s.parseState⟩ else none
  | .inStringEscU1 => if isHex c then some ⟨.inStringEscU12, s.parseState⟩ else none
  | .inStringEscU12 => if isHex c then some ⟨.inStringEscU123, s.parseState⟩ else none
  | .inStringEscU123 => if isHex c then some ⟨.inString, s.parseState⟩ else none
  | .neg =>
    if c = '0' then some ⟨.zero, s.parseState⟩
    else if '1' ≤ c && c ≤ '9' then some ⟨.one, s.parseState⟩
    else none
  | .one => if isDigit c then some s else state0 s c
  | .zero => state0 s c
  | .dot => if isDigit c then some ⟨.dot0, s.parseState⟩ else none
  | .dot0 =>
    if isDigit c then some s
    else if c = 'e' || c = 'E' then some ⟨.e, s.parseState⟩
    else stateEndValue s c
  | .e => if c = '+' || c = '-' then some ⟨.eSign, s.parseState⟩ else stateESign s c
  | .eSign => stateESign s c
  | .e0 => if isDigit c then some s else stateEndValue s c
  | .t => if c = 'r' then some ⟨.tr, s.parseState⟩ else none
  | .tr => if c = 'u' then some ⟨.tru, s.parseState⟩ else none
  | .tru => if c = 'e' then some ⟨.endValue, s.parseState⟩ else none
  | .f => if c = 'a' then some ⟨.fa, s.parseState⟩ else none
  | .fa => if c = 'l' then some ⟨.fal, s.parseState⟩ else none
  | .fal => if c = 's' then some ⟨.fals, s.parseState⟩ else none
  | .fals => if c = 'e' then some ⟨.endValue, s.parseState⟩ else none
  | .n => if c = 'u' then some ⟨.nu, s.parseState⟩ else none
  | .nu => if c = 'l' then some ⟨.nul, s.parseState⟩ else none
  | .nul => if c = 'l' then some ⟨.endValue, s.parseState⟩ else none

/-- The loop of `checkValid` over the bytes of the input. -/
def scanner.run : scanner → List Char → Option scanner
  | s, [] => some s
  | s, c :: data =>
    match s.next c with
    | some s1 => s1.run data
    | none => none

/-- `scanner.eof`: the input may end here. -/
def scanner.eof (s : scanner) : Bool :=
  if s.step = .endTop then true
  else match s.next ' ' with
    | some s1 => s1.step = .endTop
    | none => false

/-- `json.Valid(data)`: the input is one JSON value. -/
def Valid (data : String) : Bool :=
  match scanner.run ⟨.beginValue, []⟩ data.data with
  | some s => s.eof
  | none => false

/-- The index in the template of the comma after the only widget of the first
section, right before the bracket that closes the `widgets` array. -/
def trailingComma : Nat := 459

/-- The template without the comma at `trailingComma`. -/
def templateWithoutTrailingComma : String :=
  ⟨MESSAGE_TEMPLATE.data.take trailingComma ++ MESSAGE_TEMPLATE.data.drop (trailingComma + 1)⟩

/-! ## Concrete inputs -/

/-- The incident of the rendering example: policy `CPU High`, started at Unix
second 0. -/
def cpuHigh : incident := ⟨"CPU High", "0.abc", ⟨"log line"⟩, "open", "https://x/y", 0⟩

/-- An incident whose policy name is the text of a placeholder. -/
def policyNamedStatus : incident := ⟨"\x7bstatus\x7d", "", ⟨""⟩, "open", "", 0⟩

/-- A process whose local zone is one hour east of UTC (Central European
Time). -/
def CET : Location := ⟨fun _ => 3600⟩

/-- A runtime in zone `loc` in which the event decodes to `pld`, the POST is
answered, and the answer `resBody` parses as `parsed`. -/
def answering (loc : Location) (pld : messagePayload) (resBody : String)
    (parsed : Except String googleChatResponse) : Runtime Unit Unit where
  Local := loc
  DataAs := fun _ => .ok ⟨⟨"payload"⟩⟩
  UnmarshalPayload := fun _ => .ok pld
  Post := fun _ _ _ => .ok ()
  ReadAll := fun _ => .ok resBody
  UnmarshalResponse := fun _ => parsed

/-- A runtime in which the envelope of the event cannot be decoded. -/
def undecodable : Runtime Unit Unit where
  Local := UTC
  DataAs := fun _ => .error "unexpected end of JSON input"
  UnmarshalPayload := fun _ => .ok ⟨cpuHigh⟩
  Post := fun _ _ _ => .ok ()
  ReadAll := fun _ => .ok ""
  UnmarshalResponse := fun _ => .ok ⟨⟨0, "", ""⟩⟩

/-- The incident `cpuHigh` under another incident id. -/
def cpuHighAgain : incident := ⟨"CPU High", "0.xyz", ⟨"log line"⟩, "open", "https://x/y", 0⟩

/-- An incident whose policy name contains double quotes. -/
def quotedPolicy : incident := ⟨"CPU \"High\"", "0.abc", ⟨"log line"⟩, "open", "https://x/y", 0⟩

/-- Neither old string is a prefix of the other. -/
def prefixFree (a b : List Char) : Prop := ¬ a <+: b ∧ ¬ b <+: a

instance (a b : List Char) : Decidable (prefixFree a b) := by
  unfold prefixFree; infer_instance

/-! ## The replacer: general facts -/

theorem lookup_eq_lookupIdx (oldnew : List (List Char × List Char)) (s : List Char)
    (ignoreRoot : Bool) :
    lookup oldnew s ignoreRoot
      = (lookupIdx (oldnew.map Prod.fst) s ignoreRoot).map
          (fun p => ((oldnew.map Prod.snd).getD p.1 [], p.2)) := by
  induction oldnew with
  | nil => rfl
  | cons p rest ih =>
    obtain ⟨old, new⟩ := p
    simp only [lookup, List.map_cons, lookupIdx]
    split
    · simp
    · rw [ih]
      cases lookupIdx (rest.map Prod.fst) s ignoreRoot <;> simp

theorem replaceLoop_eq_fill (oldnew : List (List Char × List Char)) (skip : Nat)
    (s : List Char) :
    replaceLoop oldnew skip s
      = fill (oldnew.map Prod.snd) (scanLoop (oldnew.map Prod.fst) skip s) := by
  induction s generalizing skip with
  | nil =>
    simp only [replaceLoop, scanLoop, lookup_eq_lookupIdx]
    cases lookupIdx (oldnew.map Prod.fst) [] false with
    | none => simp [fill]
    | some p => simp [fill]
  | cons c s ih =>
    cases skip with
    | succ k => simp only [replaceLoop, scanLoop, ih]
    | zero =>
      simp only [replaceLoop, scanLoop, lookup_eq_lookupIdx]
      cases h1 : lookupIdx (oldnew.map Prod.fst) (c :: s) false with
      | none => simp [fill, ih]
      | some p =>
        obtain ⟨i, n⟩ := p
        cases n with
        | succ n => simp [fill, ih]
        | zero =>
          cases h2 : lookupIdx (oldnew.map Prod.fst) (c :: s) true with
          | none => simp [fill, ih]
          | some q =>
            obtain ⟨j, m⟩ := q
            cases m with
            | succ m => simp [fill, ih]
            | zero => simp [fill, ih]

theorem fill_append (news : List (List Char)) (a b : List Piece) :
    fill news (a ++ b) = fill news a ++ fill news b := by
  induction a with
  | nil => rfl
  | cons p rest ih =>
    cases p with
    | text c => simp [fill, ih]
    | slot i => simp [fill, ih]

theorem fill_text (news : List (List Char)) (s : List Char) :
    fill news (s.map Piece.text) = s := by
  induction s with
  | nil => rfl
  | cons c s ih => simp [fill, ih]

theorem fill_slot (news : List (List Char)) (i : Nat) (rest : List Piece) :
    fill news (.slot i :: rest) = news.getD i [] ++ fill news rest := rfl

/-! ## The template -/

set_option maxRecDepth 100000 in
theorem scan_template :
    scanLoop templateOlds 0 MESSAGE_TEMPLATE.data
      = (seg 0).data.map Piece.text ++ .slot 0 :: ((seg 1).data.map Piece.text ++ .slot 1 ::
        ((seg 2).data.map Piece.text ++ .slot 2 :: ((seg 3).data.map Piece.text ++ .slot 3 ::
        ((seg 4).data.map Piece.text ++ .slot 4 :: (seg 5).data.map Piece.text)))) := by
  decide!

set_option maxRecDepth 100000 in
theorem template_split :
    MESSAGE_TEMPLATE = seg 0 ++ "\x7balertName\x7d" ++ seg 1 ++ "\x7bstartedAt\x7d" ++ seg 2
      ++ "\x7blogMessage\x7d" ++ seg 3 ++ "\x7bstatus\x7d" ++ seg 4 ++ "\x7bincidentURL\x7d"
      ++ seg 5 := by
  decide!

set_option maxRecDepth 100000 in
theorem placeholder_once :
    ∀ p ∈ placeholders, occurrences p.data MESSAGE_TEMPLATE.data = 1 := by
  decide!

set_option maxRecDepth 100000 in
theorem seg_free : ∀ p ∈ placeholders, ∀ i ∈ [0, 1, 2, 3, 4, 5], ¬ occursIn p (seg i) := by
  decide!

set_option maxRecDepth 100000 in
theorem formatMessage_argsList (loc : Location) (inc : incident) :
    formatMessage MESSAGE_TEMPLATE (argsList loc inc) = some (rendered loc inc) := by
  have hfst : (List.map (fun p : String × String => (p.1.data, p.2.data))
      (pairUp (argsList loc inc))).map Prod.fst = templateOlds := rfl
  have hnew : NewReplacer (argsList loc inc)
      = some ⟨List.map (fun p => (p.1.data, p.2.data)) (pairUp (argsList loc inc))⟩ := by
    simp [NewReplacer, argsList]
  rw [formatMessage, hnew, Option.map_some', Replacer.Replace, replaceLoop_eq_fill, hfst,
    scan_template]
  congr 1
  apply String.ext
  simp only [fill_append, fill_slot, fill_text, rendered, String.data_append, pairUp, argsList,
    List.map_cons, List.map_nil, List.getD_cons_zero, List.getD_cons_succ, List.append_assoc]

/-! ## Substrings of a text cut at a separator -/

theorem prefix_of_prefix_append_sep {c : Char} {t A B : List Char} (hc : c ∉ t)
    (h : t <+: A ++ c :: B) : t <+: A := by
  induction A generalizing t with
  | nil =>
    rcases List.prefix_cons_iff.mp h with h0 | ⟨t', ht, -⟩
    · rw [h0]
    · exact absurd (by rw [ht]; exact List.mem_cons_self _ _) hc
  | cons a A ih =>
    rcases List.prefix_cons_iff.mp h with h0 | ⟨t', ht, h'⟩
    · rw [h0]; exact List.nil_prefix
    · subst ht
      have hc' : c ∉ t' := fun hm => hc (List.mem_cons_of_mem _ hm)
      exact List.cons_prefix_cons.mpr ⟨rfl, ih hc' h'⟩

theorem infix_append_sep_iff {c : Char} {t : List Char} (hc : c ∉ t) (A B : List Char) :
    t <:+: A ++ c :: B ↔ t <:+: A ∨ t <:+: B := by
  constructor
  · intro h
    induction A with
    | nil =>
      rcases List.infix_cons_iff.mp h with h1 | h1
      · have := prefix_of_prefix_append_sep (A := []) hc h1
        exact Or.inl this.isInfix
      · exact Or.inr h1
    | cons a A ih =>
      rcases List.infix_cons_iff.mp h with h1 | h1
      · exact Or.inl (prefix_of_prefix_append_sep (A := a :: A) hc h1).isInfix
      · rcases ih h1 with h2 | h2
        · exact Or.inl (List.infix_cons_iff.mpr (Or.inr h2))
        · exact Or.inr h2
  · rintro (h | h)
    · exact h.trans (List.prefix_append A _).isInfix
    · exact h.trans ((List.suffix_cons c B).trans (List.suffix_append A _)).isInfix

/-! ## The characters of a formatted time -/

theorem digitChar_isTimeChar (d : Nat) : isTimeChar (digitChar d) = true := by
  unfold digitChar
  split <;> decide

theorem decimalAux_isTimeChar (fuel u : Nat) (acc : List Char)
    (hacc : ∀ c ∈ acc, isTimeChar c = true) :
    ∀ c ∈ decimalAux fuel u acc, isTimeChar c = true := by
  induction fuel generalizing u acc with
  | zero => simpa [decimalAux] using hacc
  | succ fuel ih =>
    have hcons : ∀ c ∈ digitChar u :: acc, isTimeChar c = true := by
      intro c hc
      rcases List.mem_cons.mp hc with h | h
      · rw [h]; exact digitChar_isTimeChar u
      · exact hacc c h
    unfold decimalAux
    split
    · exact hcons
    · exact ih _ _ hcons

theorem appendInt_isTimeChar (x : Int) (width : Nat) :
    ∀ c ∈ appendInt x width, isTimeChar c = true := by
  intro c hc
  simp only [appendInt, List.mem_append] at hc
  rcases hc with (hc | hc) | hc
  · split at hc
    · rw [List.mem_singleton.mp hc]; decide
    · simp at hc
  · rw [(List.mem_replicate.mp hc).2]; decide
  · exact decimalAux_isTimeChar _ _ [] (by simp) c hc

theorem Format_isTimeChar (loc : Location) (sec : Int) :
    ∀ c ∈ (Time.Format loc sec).data, isTimeChar c = true := by
  intro c hc
  simp only [Time.Format, List.mem_flatMap] at hc
  obtain ⟨chunk, hmem, hc⟩ := hc
  simp only [startedAtLayout, List.mem_cons, List.mem_nil_iff, or_false] at hmem
  rcases hmem with h | h | h | h | h | h | h | h | h | h | h | h <;> subst h <;>
    first
    | exact appendInt_isTimeChar _ _ c hc
    | (simp only [appendChunk] at hc; revert c; decide)

/-! ## Decimal digits -/

theorem decimalValue_nil (a : Nat) : decimalValue a [] = a := rfl

theorem decimalValue_cons (a : Nat) (c : Char) (s : List Char) :
    decimalValue a (c :: s) = decimalValue (10 * a + (c.toNat - 48)) s := rfl

theorem digitChar_toNat (d : Nat) : (digitChar d).toNat - 48 = d % 10 := by
  have hlt : d % 10 < 10 := Nat.mod_lt _ (by decide)
  unfold digitChar
  generalize d % 10 = m at hlt
  interval_cases m <;> rfl

theorem decimalValue_eq (a : Nat) (s : List Char) :
    decimalValue a s = a * 10 ^ s.length + decimalValue 0 s := by
  induction s generalizing a with
  | nil => rw [decimalValue_nil, decimalValue_nil, List.length_nil, Nat.pow_zero]; omega
  | cons c s ih =>
    rw [decimalValue_cons, decimalValue_cons, List.length_cons]
    generalize c.toNat - 48 = x
    rw [ih, ih (10 * 0 + x), Nat.pow_succ]
    ring

theorem decimalAux_value (fuel u : Nat) (acc : List Char) (h : u < fuel) :
    decimalValue 0 (decimalAux fuel u acc) = u * 10 ^ acc.length + decimalValue 0 acc := by
  induction fuel generalizing u acc with
  | zero => omega
  | succ fuel ih =>
    unfold decimalAux
    split
    · rename_i hlt
      rw [decimalValue_cons, decimalValue_eq, digitChar_toNat, Nat.mod_eq_of_lt hlt,
        Nat.mul_zero, Nat.zero_add]
    · rename_i hge
      rw [ih (u / 10) _ (by omega), decimalValue_cons, decimalValue_eq (10 * 0 + _),
        digitChar_toNat, List.length_cons, Nat.pow_succ]
      generalize 10 ^ acc.length = q
      generalize decimalValue 0 acc = r
      have hdm := Nat.div_add_mod u 10
      have hu : u * q = (10 * (u / 10) + u % 10) * q := by rw [hdm]
      rw [hu]
      ring

/-- The digits of `decimal u` denote `u`: the fuel of `decimalAux` never runs out. -/
theorem decimal_value (u : Nat) : decimalValue 0 (decimal u) = u := by
  rw [decimal, decimalAux_value (u + 1) u [] (by omega), decimalValue_nil]
  simp

/-! ## Placeholders in the rendered message -/

theorem seg_delimiters :
    (seg 0).data = segCore 0 ++ ['"']
    ∧ (seg 1).data = '"' :: (segCore 1 ++ [' '])
    ∧ (seg 2).data = '"' :: (segCore 2 ++ ['"'])
    ∧ (seg 3).data = '"' :: (segCore 3 ++ ['"'])
    ∧ (seg 4).data = '"' :: (segCore 4 ++ ['"'])
    ∧ (seg 5).data = '"' :: segCore 5 := by
  decide!

theorem rendered_data (loc : Location) (inc : incident) :
    (rendered loc inc).data
      = segCore 0 ++ '"' :: (inc.PolicyName.data ++ '"' :: (segCore 1 ++ ' ' ::
        ((Time.Format loc inc.StartedAt).data ++ '"' :: (segCore 2 ++ '"' ::
        (inc.Documentation.Content.data ++ '"' :: (segCore 3 ++ '"' ::
        (inc.State.data ++ '"' :: (segCore 4 ++ '"' ::
        (inc.Url.data ++ '"' :: segCore 5))))))))) := by
  obtain ⟨h0, h1, h2, h3, h4, h5⟩ := seg_delimiters
  simp only [rendered, String.data_append, h0, h1, h2, h3, h4, h5, List.append_assoc,
    List.cons_append, List.nil_append]

theorem placeholder_shape :
    ∀ p ∈ placeholders, '"' ∉ p.data ∧ ' ' ∉ p.data ∧ isTimeChar '\x7b' = false ∧ '\x7b' ∈ p.data
      ∧ ∀ i ∈ [0, 1, 2, 3, 4, 5], ¬ p.data <:+: segCore i := by
  decide!

theorem occursIn_rendered_iff (loc : Location) (inc : incident) (p : String)
    (hp : p ∈ placeholders) :
    occursIn p (rendered loc inc)
      ↔ occursIn p inc.PolicyName ∨ occursIn p inc.Documentation.Content
        ∨ occursIn p inc.State ∨ occursIn p inc.Url := by
  obtain ⟨hq, hs, hb, hmem, hcore⟩ := placeholder_shape p hp
  have htime : ¬ p.data <:+: (Time.Format loc inc.StartedAt).data := by
    intro h
    have := Format_isTimeChar loc inc.StartedAt _ (h.subset hmem)
    rw [hb] at this
    exact Bool.false_ne_true this
  have c0 := hcore 0 (by simp)
  have c1 := hcore 1 (by simp)
  have c2 := hcore 2 (by simp)
  have c3 := hcore 3 (by simp)
  have c4 := hcore 4 (by simp)
  have c5 := hcore 5 (by simp)
  simp only [occursIn, rendered_data, infix_append_sep_iff hq, infix_append_sep_iff hs,
    c0, c1, c2, c3, c4, c5, htime, false_or, or_false]

/-! ## The handler -/

theorem googleChatAlert_posts_le_one {Event Response : Type} (rt : Runtime Event Response)
    (e : Event) : (posts (googleChatAlert rt e).calls).length ≤ 1 := by
  simp only [googleChatAlert, formatMessage_argsList]
  repeat' split
  all_goals simp [posts]

theorem googleChatAlert_posts_of_decoded {Event Response : Type} (rt : Runtime Event Response)
    (e : Event) (msg : messageData) (pld : messagePayload) (h1 : rt.DataAs e = .ok msg)
    (h2 : rt.UnmarshalPayload msg.Message.Data = .ok pld) :
    posts (googleChatAlert rt e).calls
      = [("<YOUR WEBHOOK URL>", "application/json", rendered rt.Local pld.Incident)] := by
  simp only [googleChatAlert, h1, h2, formatMessage_argsList]
  repeat' split
  all_goals simp [posts]

theorem googleChatAlert_of_parsed {Event Response : Type} (rt : Runtime Event Response)
    (e : Event) (msg : messageData) (pld : messagePayload) (message : String) (res : Response)
    (resBody : String) (h1 : rt.DataAs e = .ok msg)
    (h2 : rt.UnmarshalPayload msg.Message.Data = .ok pld)
    (h3 : formatMessage MESSAGE_TEMPLATE (argsList rt.Local pld.Incident) = some message)
    (h4 : rt.Post "<YOUR WEBHOOK URL>" "application/json" message = .ok res)
    (h5 : rt.ReadAll res = .ok resBody) :
    (googleChatAlert rt e).outcome
      = match rt.UnmarshalResponse resBody with
        | .error err =>
          .error ("failed to unmarshal google chat response: " ++ err ++ ", received: "
            ++ resBody)
        | .ok googleChatRes =>
          if googleChatRes.Error ≠ ⟨0, "", ""⟩ then
            .error ("received an error response from Google Chat: "
              ++ fmtResponse googleChatRes)
          else .nil := by
  simp only [googleChatAlert, h1, h2, h3, h4, h5]
  repeat' split
  all_goals rfl

/-! ## The order of the pairs -/

theorem pairUp_flatten (ps : List (String × String)) : pairUp (flatten ps) = ps := by
  induction ps with
  | nil => rfl
  | cons p rest ih =>
    obtain ⟨old, new⟩ := p
    simp only [flatten, pairUp, ih]

theorem length_flatten (ps : List (String × String)) : (flatten ps).length = 2 * ps.length := by
  induction ps with
  | nil => rfl
  | cons p rest ih =>
    obtain ⟨old, new⟩ := p
    simp only [flatten, List.length_cons, ih]
    omega

theorem NewReplacer_flatten (ps : List (String × String)) :
    NewReplacer (flatten ps) = some ⟨ps.map (fun p => (p.1.data, p.2.data))⟩ := by
  have hlen : ¬ (flatten ps).length % 2 = 1 := by
    rw [length_flatten]
    omega
  simp only [NewReplacer, hlen, if_false, pairUp_flatten]

theorem lookup_some_mem {l : List (List Char × List Char)} {s : List Char} {ig : Bool}
    {v : List Char} {n : Nat} (h : lookup l s ig = some (v, n)) :
    ∃ k, (k, v) ∈ l ∧ k <+: s ∧ ¬ (ig = true ∧ k = []) ∧ n = k.length := by
  induction l with
  | nil => simp [lookup] at h
  | cons p rest ih =>
    obtain ⟨old, new⟩ := p
    simp only [lookup] at h
    split at h
    · rename_i hcond
      simp only [Option.some.injEq, Prod.mk.injEq] at h
      obtain ⟨hv, hn⟩ := h
      subst hv
      simp only [Bool.and_eq_true, List.isPrefixOf_iff_prefix, Bool.not_eq_true',
        Bool.and_eq_false_imp, List.isEmpty_eq_false] at hcond
      refine ⟨old, List.mem_cons_self _ _, hcond.1, ?_, hn.symm⟩
      rintro ⟨hig, hk⟩
      exact hcond.2 hig hk
    · obtain ⟨k, hk, hrest⟩ := ih h
      exact ⟨k, List.mem_cons_of_mem _ hk, hrest⟩

theorem lookup_of_mem {l : List (List Char × List Char)}
    (hpw : l.Pairwise (fun a b => prefixFree a.1 b.1)) {s : List Char} {ig : Bool}
    {k v : List Char} (hmem : (k, v) ∈ l) (hpre : k <+: s) (hig : ¬ (ig = true ∧ k = [])) :
    lookup l s ig = some (v, k.length) := by
  induction l with
  | nil => simp at hmem
  | cons p rest ih =>
    obtain ⟨old, new⟩ := p
    rw [List.pairwise_cons] at hpw
    simp only [lookup]
    rcases List.mem_cons.mp hmem with heq | hin
    · simp only [Prod.mk.injEq] at heq
      obtain ⟨hk, hv⟩ := heq
      subst hk hv
      have hcond : (k.isPrefixOf s && !(ig && k.isEmpty)) = true := by
        simp only [Bool.and_eq_true, List.isPrefixOf_iff_prefix, Bool.not_eq_true',
          Bool.and_eq_false_imp, List.isEmpty_eq_false]
        exact ⟨hpre, fun h1 h2 => hig ⟨h1, h2⟩⟩
      rw [if_pos hcond]
    · have hfree := hpw.1 (k, v) hin
      have hcond : ¬ (old.isPrefixOf s && !(ig && old.isEmpty)) = true := by
        simp only [Bool.and_eq_true, List.isPrefixOf_iff_prefix, not_and]
        intro hold
        rcases List.prefix_or_prefix_of_prefix hold hpre with h | h
        · exact absurd h hfree.1
        · exact absurd h hfree.2
      rw [if_neg hcond]
      exact ih hpw.2 hin

theorem lookup_perm {a b : List (List Char × List Char)} (hperm : a.Perm b)
    (hpw : a.Pairwise (fun p q => prefixFree p.1 q.1)) (s : List Char) (ig : Bool) :
    lookup a s ig = lookup b s ig := by
  have hpwb : b.Pairwise (fun p q => prefixFree p.1 q.1) :=
    (hperm.pairwise_iff (fun {_ _} h => ⟨h.2, h.1⟩)).mp hpw
  cases ha : lookup a s ig with
  | some x =>
    obtain ⟨v, n⟩ := x
    obtain ⟨k, hk, hpre, hig, hn⟩ := lookup_some_mem ha
    rw [hn]
    exact (lookup_of_mem hpwb (hperm.mem_iff.mp hk) hpre hig).symm
  | none =>
    cases hb : lookup b s ig with
    | none => rfl
    | some x =>
      obtain ⟨v, n⟩ := x
      obtain ⟨k, hk, hpre, hig, hn⟩ := lookup_some_mem hb
      rw [lookup_of_mem hpw (hperm.mem_iff.mpr hk) hpre hig] at ha
      exact absurd ha (by simp)

theorem replaceLoop_congr {a b : List (List Char × List Char)}
    (h : ∀ s ig, lookup a s ig = lookup b s ig) (skip : Nat) (s : List Char) :
    replaceLoop a skip s = replaceLoop b skip s := by
  induction s generalizing skip with
  | nil => simp only [replaceLoop, h]
  | cons c s ih =>
    cases skip with
    | succ k => simp only [replaceLoop, ih]
    | zero => simp only [replaceLoop, h, ih]

theorem templateOlds_prefixFree : templateOlds.Pairwise prefixFree := by
  decide

theorem argsList_prefixFree (loc : Location) (inc : incident) :
    ((pairUp (argsList loc inc)).map (fun p => (p.1.data, p.2.data))).Pairwise
      (fun p q => prefixFree p.1 q.1) := by
  have h := templateOlds_prefixFree
  have hfst : ((pairUp (argsList loc inc)).map (fun p => (p.1.data, p.2.data))).map Prod.fst
      = templateOlds := rfl
  rw [← hfst, List.pairwise_map] at h
  exact h

/-- C10: for every incident and every permutation of the five (placeholder, value) pairs of
`argsList`, `formatMessage` applied to the template and the permuted pairs returns the same
message as with the order of the code. -/
theorem order_of_pairs_does_not_matter (loc : Location) (inc : incident)
    (ps : List (String × String)) (hperm : ps.Perm (pairUp (argsList loc inc))) :
    formatMessage MESSAGE_TEMPLATE (flatten ps)
      = formatMessage MESSAGE_TEMPLATE (argsList loc inc) := by
  have hargs : flatten (pairUp (argsList loc inc)) = argsList loc inc := rfl
  have hmap := (hperm.map (fun p : String × String => (p.1.data, p.2.data))).symm
  have hlook := lookup_perm hmap (argsList_prefixFree loc inc)
  rw [← hargs, formatMessage, formatMessage, NewReplacer_flatten, NewReplacer_flatten]
  simp only [Option.map_some', Replacer.Replace]
  rw [replaceLoop_congr hlook]

theorem order_of_pairs_does_not_matter_witness :
    ((pairUp (argsList UTC cpuHigh)).reverse).Perm (pairUp (argsList UTC cpuHigh))
    ∧ formatMessage MESSAGE_TEMPLATE (flatten (pairUp (argsList UTC cpuHigh)).reverse)
      = formatMessage MESSAGE_TEMPLATE (argsList UTC cpuHigh) :=
  ⟨List.reverse_perm _,
    order_of_pairs_does_not_matter UTC cpuHigh _ (List.reverse_perm _)⟩

/-! ## Rendering -/

/-- C1: for every incident, `formatMessage(MESSAGE_TEMPLATE, argsList...)` returns the
template with each placeholder replaced by its value, copied verbatim: the template is
`seg 0`, `{alertName}`, `seg 1`, `{startedAt}`, `seg 2`, `{logMessage}`, `seg 3`, `{status}`,
`seg 4`, `{incidentURL}`, `seg 5`, every placeholder starts at exactly one index of the
template and none occurs in a `seg i`; the rendered message is the same sequence with the
policy name, the formatted timestamp, the documentation content, the state and the URL in
the places of the placeholders, whatever these values contain. -/
theorem render_replaces_each_placeholder_verbatim (loc : Location) (inc : incident) :
    MESSAGE_TEMPLATE = seg 0 ++ "\x7balertName\x7d" ++ seg 1 ++ "\x7bstartedAt\x7d" ++ seg 2
        ++ "\x7blogMessage\x7d" ++ seg 3 ++ "\x7bstatus\x7d" ++ seg 4 ++ "\x7bincidentURL\x7d"
        ++ seg 5
    ∧ (∀ p ∈ placeholders, occurrences p.data MESSAGE_TEMPLATE.data = 1)
    ∧ (∀ p ∈ placeholders, ∀ i ∈ [0, 1, 2, 3, 4, 5], ¬ occursIn p (seg i))
    ∧ formatMessage MESSAGE_TEMPLATE (argsList loc inc)
        = some (seg 0 ++ inc.PolicyName ++ seg 1 ++ Time.Format loc inc.StartedAt ++ seg 2
            ++ inc.Documentation.Content ++ seg 3 ++ inc.State ++ seg 4 ++ inc.Url ++ seg 5) :=
  ⟨template_split, placeholder_once, seg_free, formatMessage_argsList loc inc⟩

/-- C2, as stated, fails: for the incident whose policy name is `{status}` the rendered
message contains the placeholder `{status}`. -/
theorem placeholder_left_in_output :
    ∃ m, formatMessage MESSAGE_TEMPLATE (argsList UTC policyNamedStatus) = some m
      ∧ "\x7bstatus\x7d" ∈ placeholders ∧ occursIn "\x7bstatus\x7d" m :=
  ⟨_, formatMessage_argsList UTC policyNamedStatus, by decide,
    (occursIn_rendered_iff UTC policyNamedStatus _ (by decide)).mpr
      (Or.inl (List.infix_refl _))⟩

/-- C2, amended: for every incident whose policy name, documentation content, state and URL
contain none of the five placeholders, rendering returns the template with each placeholder
replaced by its value, and none of the five placeholders occurs in that message. -/
theorem no_placeholder_left_of_clean_values (loc : Location) (inc : incident)
    (hclean : ∀ p ∈ placeholders, ¬ occursIn p inc.PolicyName
      ∧ ¬ occursIn p inc.Documentation.Content ∧ ¬ occursIn p inc.State
      ∧ ¬ occursIn p inc.Url) :
    ∃ m, formatMessage MESSAGE_TEMPLATE (argsList loc inc) = some m
      ∧ m = seg 0 ++ inc.PolicyName ++ seg 1 ++ Time.Format loc inc.StartedAt ++ seg 2
          ++ inc.Documentation.Content ++ seg 3 ++ inc.State ++ seg 4 ++ inc.Url ++ seg 5
      ∧ ∀ p ∈ placeholders, ¬ occursIn p m := by
  refine ⟨_, formatMessage_argsList loc inc, rfl, fun p hp h => ?_⟩
  obtain ⟨h1, h2, h3, h4⟩ := hclean p hp
  rcases (occursIn_rendered_iff loc inc p hp).mp h with h | h | h | h
  · exact h1 h
  · exact h2 h
  · exact h3 h
  · exact h4 h

theorem no_placeholder_left_of_clean_values_witness :
    (∀ p ∈ placeholders, ¬ occursIn p cpuHigh.PolicyName
      ∧ ¬ occursIn p cpuHigh.Documentation.Content ∧ ¬ occursIn p cpuHigh.State
      ∧ ¬ occursIn p cpuHigh.Url)
    ∧ ∃ m, formatMessage MESSAGE_TEMPLATE (argsList UTC cpuHigh) = some m
      ∧ m = seg 0 ++ cpuHigh.PolicyName ++ seg 1 ++ Time.Format UTC cpuHigh.StartedAt ++ seg 2
          ++ cpuHigh.Documentation.Content ++ seg 3 ++ cpuHigh.State ++ seg 4 ++ cpuHigh.Url
          ++ seg 5
      ∧ ∀ p ∈ placeholders, ¬ occursIn p m :=
  ⟨by decide, no_placeholder_left_of_clean_values UTC cpuHigh (by decide)⟩

/-! ## The formatted start time -/

theorem Format_zero_of_offset_zero (loc : Location) (h : loc.offset 0 = 0) :
    Time.Format loc 0 = "1970-01-01 00:00:00 CET" := by
  have habs : Time.abs loc 0 = Time.abs UTC 0 := by
    simp only [Time.abs, h, UTC]
  have hfmt : Time.Format loc 0 = Time.Format UTC 0 := by
    simp only [Time.Format, habs]
  rw [hfmt]
  decide

/-- C4, as stated, fails: in a process whose local zone is Central European Time, Unix second
0 is formatted as `1970-01-01 01:00:00 CET`, and the string `1970-01-01 00:00:00 CET` does not
occur in the message rendered for the incident of the example. -/
theorem started_at_zero_in_CET :
    Time.Format CET 0 = "1970-01-01 01:00:00 CET"
    ∧ ∃ m, formatMessage MESSAGE_TEMPLATE (argsList CET cpuHigh) = some m
      ∧ ¬ occursIn "1970-01-01 00:00:00 CET" m :=
  ⟨by decide, _, formatMessage_argsList CET cpuHigh, by decide!⟩

/-- C4, amended: in a process whose local zone has offset 0 from UTC at Unix second 0, that
second is formatted as `1970-01-01 00:00:00 CET`, and for the incident with policy name
`CPU High`, start 0, documentation content `log line`, state `open` and URL `https://x/y`
the rendered message is the template with `CPU High`, `1970-01-01 00:00:00 CET`, `log line`,
`open` and `https://x/y` in the places of `{alertName}`, `{startedAt}`, `{logMessage}`,
`{status}` and `{incidentURL}`. -/
theorem render_cpu_high_at_offset_zero (loc : Location) (incidentID : String)
    (h : loc.offset 0 = 0) :
    Time.Format loc 0 = "1970-01-01 00:00:00 CET"
    ∧ MESSAGE_TEMPLATE = seg 0 ++ "\x7balertName\x7d" ++ seg 1 ++ "\x7bstartedAt\x7d" ++ seg 2
        ++ "\x7blogMessage\x7d" ++ seg 3 ++ "\x7bstatus\x7d" ++ seg 4 ++ "\x7bincidentURL\x7d"
        ++ seg 5
    ∧ formatMessage MESSAGE_TEMPLATE
        (argsList loc ⟨"CPU High", incidentID, ⟨"log line"⟩, "open", "https://x/y", 0⟩)
        = some (seg 0 ++ "CPU High" ++ seg 1 ++ "1970-01-01 00:00:00 CET" ++ seg 2
            ++ "log line" ++ seg 3 ++ "open" ++ seg 4 ++ "https://x/y" ++ seg 5) := by
  refine ⟨Format_zero_of_offset_zero loc h, template_split, ?_⟩
  rw [formatMessage_argsList, rendered, Format_zero_of_offset_zero loc h]

theorem render_cpu_high_at_offset_zero_witness :
    UTC.offset 0 = 0
    ∧ Time.Format UTC 0 = "1970-01-01 00:00:00 CET"
    ∧ MESSAGE_TEMPLATE = seg 0 ++ "\x7balertName\x7d" ++ seg 1 ++ "\x7bstartedAt\x7d" ++ seg 2
        ++ "\x7blogMessage\x7d" ++ seg 3 ++ "\x7bstatus\x7d" ++ seg 4 ++ "\x7bincidentURL\x7d"
        ++ seg 5
    ∧ formatMessage MESSAGE_TEMPLATE
        (argsList UTC ⟨"CPU High", "0.abc", ⟨"log line"⟩, "open", "https://x/y", 0⟩)
        = some (seg 0 ++ "CPU High" ++ seg 1 ++ "1970-01-01 00:00:00 CET" ++ seg 2
            ++ "log line" ++ seg 3 ++ "open" ++ seg 4 ++ "https://x/y" ++ seg 5) :=
  ⟨rfl, render_cpu_high_at_offset_zero UTC "0.abc" rfl⟩

/-- C8: every invocation makes at most one HTTP POST; when the envelope and the payload
decode, it makes exactly one, to the webhook URL with content type `application/json` and the
rendered message as its body, and a transport, read, response-parse or remote error after it
ends the invocation with an error, the POST still being the only one. -/
theorem at_most_one_post {Event Response : Type} (rt : Runtime Event Response) (e : Event) :
    (posts (googleChatAlert rt e).calls).length ≤ 1
    ∧ ∀ msg pld, rt.DataAs e = .ok msg → rt.UnmarshalPayload msg.Message.Data = .ok pld →
      ∃ message, formatMessage MESSAGE_TEMPLATE (argsList rt.Local pld.Incident) = some message
        ∧ posts (googleChatAlert rt e).calls
            = [("<YOUR WEBHOOK URL>", "application/json", message)]
        ∧ (∀ err, rt.Post "<YOUR WEBHOOK URL>" "application/json" message = .error err →
            (googleChatAlert rt e).outcome
              = .error ("failed to send request to Google Chat: " ++ err))
        ∧ (∀ res err, rt.Post "<YOUR WEBHOOK URL>" "application/json" message = .ok res →
            rt.ReadAll res = .error err →
            (googleChatAlert rt e).outcome = .error ("failed to read body: " ++ err))
        ∧ (∀ res resBody err,
            rt.Post "<YOUR WEBHOOK URL>" "application/json" message = .ok res →
            rt.ReadAll res = .ok resBody → rt.UnmarshalResponse resBody = .error err →
            (googleChatAlert rt e).outcome
              = .error ("failed to unmarshal google chat response: " ++ err ++ ", received: "
                  ++ resBody))
        ∧ (∀ res resBody googleChatRes,
            rt.Post "<YOUR WEBHOOK URL>" "application/json" message = .ok res →
            rt.ReadAll res = .ok resBody → rt.UnmarshalResponse resBody = .ok googleChatRes →
            googleChatRes.Error ≠ ⟨0, "", ""⟩ →
            (googleChatAlert rt e).outcome
              = .error ("received an error response from Google Chat: "
                  ++ fmtResponse googleChatRes)) := by
  refine ⟨googleChatAlert_posts_le_one rt e, fun msg pld h1 h2 => ?_⟩
  refine ⟨_, formatMessage_argsList rt.Local pld.Incident,
    googleChatAlert_posts_of_decoded rt e msg pld h1 h2, ?_, ?_, ?_, ?_⟩
  · intro err h4
    simp only [googleChatAlert, h1, h2, formatMessage_argsList, h4]
  · intro res err h4 h5
    simp only [googleChatAlert, h1, h2, formatMessage_argsList, h4, h5]
  · intro res resBody err h4 h5 h6
    simp only [googleChatAlert, h1, h2, formatMessage_argsList, h4, h5, h6]
  · intro res resBody googleChatRes h4 h5 h6 h7
    simp only [googleChatAlert, h1, h2, formatMessage_argsList, h4, h5, h6, h7, ne_eq,
      not_false_eq_true, if_true]

theorem at_most_one_post_witness :
    ∃ message, formatMessage MESSAGE_TEMPLATE (argsList UTC cpuHigh) = some message
      ∧ posts (googleChatAlert (answering UTC ⟨cpuHigh⟩ "<html>busy</html>"
          (.error "invalid character")) ()).calls
          = [("<YOUR WEBHOOK URL>", "application/json", message)]
      ∧ (googleChatAlert (answering UTC ⟨cpuHigh⟩ "<html>busy</html>"
          (.error "invalid character")) ()).outcome
          = .error ("failed to unmarshal google chat response: " ++ "invalid character"
              ++ ", received: " ++ "<html>busy</html>") := by
  obtain ⟨message, h3, hposts, -, -, hparse, -⟩ :=
    (at_most_one_post (answering UTC ⟨cpuHigh⟩ "<html>busy</html>"
      (.error "invalid character")) ()).2 ⟨⟨"payload"⟩⟩ ⟨cpuHigh⟩ rfl rfl
  exact ⟨message, h3, hposts, hparse () _ _ rfl rfl rfl⟩

/-- C9, as stated, fails: the same event with the same incident `CPU High` is posted with
different bodies by a process whose local zone is UTC and by one whose local zone is Central
European Time. -/
theorem post_body_depends_on_local_zone :
    posts (googleChatAlert (answering UTC ⟨cpuHigh⟩ "" (.ok ⟨⟨0, "", ""⟩⟩)) ()).calls
      ≠ posts (googleChatAlert (answering CET ⟨cpuHigh⟩ "" (.ok ⟨⟨0, "", ""⟩⟩)) ()).calls := by
  decide!

/-- C9, amended: the body of the POST is a function of the policy name, the start timestamp,
the documentation content, the state and the URL of the incident and of the offset from UTC
that the local zone of the process has at the start timestamp: two invocations whose incidents
agree on the five fields and whose zones agree on that offset post the same body to the same
URL, whatever the incident ids, the events, and the outcomes of the network calls are. -/
theorem post_body_depends_on_five_fields_and_zone {Event Response : Type}
    (rt1 rt2 : Runtime Event Response) (e1 e2 : Event) (msg1 msg2 : messageData)
    (pld1 pld2 : messagePayload)
    (hloc : rt1.Local.offset pld1.Incident.StartedAt = rt2.Local.offset pld2.Incident.StartedAt)
    (h11 : rt1.DataAs e1 = .ok msg1) (h12 : rt1.UnmarshalPayload msg1.Message.Data = .ok pld1)
    (h21 : rt2.DataAs e2 = .ok msg2) (h22 : rt2.UnmarshalPayload msg2.Message.Data = .ok pld2)
    (hname : pld1.Incident.PolicyName = pld2.Incident.PolicyName)
    (hstart : pld1.Incident.StartedAt = pld2.Incident.StartedAt)
    (hdoc : pld1.Incident.Documentation.Content = pld2.Incident.Documentation.Content)
    (hstate : pld1.Incident.State = pld2.Incident.State)
    (hurl : pld1.Incident.Url = pld2.Incident.Url) :
    ∃ body, formatMessage MESSAGE_TEMPLATE (argsList rt1.Local pld1.Incident) = some body
      ∧ formatMessage MESSAGE_TEMPLATE (argsList rt2.Local pld2.Incident) = some body
      ∧ posts (googleChatAlert rt1 e1).calls = [("<YOUR WEBHOOK URL>", "application/json", body)]
      ∧ posts (googleChatAlert rt2 e2).calls
          = [("<YOUR WEBHOOK URL>", "application/json", body)] := by
  have habs : Time.abs rt2.Local pld2.Incident.StartedAt
      = Time.abs rt1.Local pld1.Incident.StartedAt := by
    unfold Time.abs
    rw [← hloc, hstart]
  have htime : Time.Format rt2.Local pld2.Incident.StartedAt
      = Time.Format rt1.Local pld1.Incident.StartedAt := by
    simp only [Time.Format, habs]
  have hsame : rendered rt2.Local pld2.Incident = rendered rt1.Local pld1.Incident := by
    simp only [rendered, htime, hname, hdoc, hstate, hurl]
  refine ⟨_, formatMessage_argsList rt1.Local pld1.Incident, ?_,
    googleChatAlert_posts_of_decoded rt1 e1 msg1 pld1 h11 h12, ?_⟩
  · rw [formatMessage_argsList, hsame]
  · rw [googleChatAlert_posts_of_decoded rt2 e2 msg2 pld2 h21 h22, hsame]

theorem post_body_depends_on_five_fields_and_zone_witness :
    ∃ body, formatMessage MESSAGE_TEMPLATE (argsList UTC cpuHigh) = some body
      ∧ formatMessage MESSAGE_TEMPLATE (argsList UTC cpuHighAgain) = some body
      ∧ posts (googleChatAlert (answering UTC ⟨cpuHigh⟩ "" (.ok ⟨⟨0, "", ""⟩⟩)) ()).calls
          = [("<YOUR WEBHOOK URL>", "application/json", body)]
      ∧ posts (googleChatAlert (answering UTC ⟨cpuHighAgain⟩ "<html>busy</html>"
          (.error "invalid character")) ()).calls
          = [("<YOUR WEBHOOK URL>", "application/json", body)] :=
  post_body_depends_on_five_fields_and_zone (answering UTC ⟨cpuHigh⟩ "" (.ok ⟨⟨0, "", ""⟩⟩))
    (answering UTC ⟨cpuHighAgain⟩ "<html>busy</html>" (.error "invalid character")) () ()
    ⟨⟨"payload"⟩⟩ ⟨⟨"payload"⟩⟩ ⟨cpuHigh⟩ ⟨cpuHighAgain⟩ rfl rfl rfl rfl rfl rfl rfl rfl rfl rfl

/-! ## JSON validity of the rendered message -/

theorem run_append (s : scanner) (a b : List Char) :
    s.run (a ++ b) = (s.run a).bind (fun s1 => s1.run b) := by
  induction a generalizing s with
  | nil => rfl
  | cons c a ih =>
    simp only [List.cons_append, scanner.run]
    cases s.next c with
    | none => rfl
    | some s1 => exact ih s1

/-- White space leaves the scanner where it is between two values, after the top-level value,
and before a value or an object key. -/
theorem run_space (s : scanner)
    (hs : (s.step = .endValue ∧ s.parseState ≠ []) ∨ s.step = .endTop ∨ s.step = .beginString
      ∨ s.step = .beginValue)
    (w t : List Char) (hw : ∀ c ∈ w, isSpace c = true) : s.run (w ++ t) = s.run t := by
  induction w with
  | nil => rfl
  | cons c w ih =>
    have hc : isSpace c = true := hw c (List.mem_cons_self _ _)
    have hnext : s.next c = some s := by
      obtain ⟨step, st⟩ := s
      rcases hs with ⟨h1, h2⟩ | h1 | h1 | h1
      · simp only at h1 h2
        subst h1
        cases st with
        | nil => exact absurd rfl h2
        | cons ps rest => simp [scanner.next, stateEndValue, hc]
      · simp only at h1
        subst h1
        simp [scanner.next, stateEndTop, hc]
      · simp only at h1
        subst h1
        simp [scanner.next, stateBeginString, hc]
      · simp only at h1
        subst h1
        simp [scanner.next, stateBeginValue, hc]
    simp only [List.cons_append, scanner.run, hnext]
    exact ih (fun c hc => hw c (List.mem_cons_of_mem _ hc))

/-- After a double quote and a line feed the scanner has failed, or it stands after a value
(the quote closed a string). -/
theorem run_quote_newline (s : scanner) (t : List Char) :
    s.run ('"' :: '\n' :: t) = none
      ∨ ∃ s1 : scanner, ((s1.step = .endValue ∧ s1.parseState ≠ []) ∨ s1.step = .endTop)
          ∧ s.run ('"' :: '\n' :: t) = s1.run t := by
  obtain ⟨step, st⟩ := s
  by_cases hstr : step = .inString
  · subst hstr
    right
    cases st with
    | nil =>
      exact ⟨⟨.endTop, []⟩, Or.inr rfl, by simp [scanner.run, scanner.next, stateEndValue,
        stateEndTop, isSpace]⟩
    | cons ps rest =>
      exact ⟨⟨.endValue, ps :: rest⟩, Or.inl ⟨rfl, by simp⟩,
        by simp [scanner.run, scanner.next, stateEndValue, isSpace]⟩
  · left
    cases step <;> first
      | exact absurd rfl hstr
      | (cases st with
         | nil => simp [scanner.run, scanner.next, stateBeginValue, stateBeginString,
             stateEndValue, stateEndTop, state0, stateESign, isSpace, isDigit, isHex]
         | cons ps rest =>
           cases ps <;> simp [scanner.run, scanner.next, stateBeginValue, stateBeginString,
             stateEndValue, stateEndTop, state0, stateESign, isSpace, isDigit, isHex])

/-- A closing brace after a value either fails or closes an object, and the scanner stands
after a value again. -/
theorem run_close_brace (s : scanner)
    (hs : (s.step = .endValue ∧ s.parseState ≠ []) ∨ s.step = .endTop) (t : List Char) :
    s.run ('\x7d' :: t) = none
      ∨ ∃ s1 : scanner, ((s1.step = .endValue ∧ s1.parseState ≠ []) ∨ s1.step = .endTop)
          ∧ s.run ('\x7d' :: t) = s1.run t := by
  obtain ⟨step, st⟩ := s
  rcases hs with ⟨h1, h2⟩ | h1
  · simp only at h1 h2
    subst h1
    cases st with
    | nil => exact absurd rfl h2
    | cons ps rest =>
      cases ps with
      | parseObjectValue =>
        right
        cases rest with
        | nil =>
          exact ⟨⟨.endTop, []⟩, Or.inr rfl,
            by simp [scanner.run, scanner.next, stateEndValue, popParseState, isSpace]⟩
        | cons q rest =>
          exact ⟨⟨.endValue, q :: rest⟩, Or.inl ⟨rfl, by simp⟩,
            by simp [scanner.run, scanner.next, stateEndValue, popParseState, isSpace]⟩
      | parseObjectKey =>
        left
        simp [scanner.run, scanner.next, stateEndValue, isSpace]
      | parseArrayValue =>
        left
        simp [scanner.run, scanner.next, stateEndValue, isSpace]
  · simp only at h1
    subst h1
    left
    simp [scanner.run, scanner.next, stateEndTop, isSpace]

/-- A comma after a value either fails or makes the scanner expect an object key or a
value. -/
theorem run_comma (s : scanner)
    (hs : (s.step = .endValue ∧ s.parseState ≠ []) ∨ s.step = .endTop) (t : List Char) :
    s.run (',' :: t) = none
      ∨ ∃ s1 : scanner, (s1.step = .beginString ∨ s1.step = .beginValue)
          ∧ s.run (',' :: t) = s1.run t := by
  obtain ⟨step, st⟩ := s
  rcases hs with ⟨h1, h2⟩ | h1
  · simp only at h1 h2
    subst h1
    cases st with
    | nil => exact absurd rfl h2
    | cons ps rest =>
      cases ps with
      | parseObjectValue =>
        exact Or.inr ⟨⟨.beginString, .parseObjectKey :: rest⟩, Or.inl rfl,
          by simp [scanner.run, scanner.next, stateEndValue, isSpace]⟩
      | parseObjectKey =>
        left
        simp [scanner.run, scanner.next, stateEndValue, isSpace]
      | parseArrayValue =>
        exact Or.inr ⟨⟨.beginValue, .parseArrayValue :: rest⟩, Or.inr rfl,
          by simp [scanner.run, scanner.next, stateEndValue, isSpace]⟩
  · simp only at h1
    subst h1
    left
    simp [scanner.run, scanner.next, stateEndTop, isSpace]

/-- Where an object key or a value is expected, a closing bracket fails. -/
theorem run_close_bracket (s : scanner) (hs : s.step = .beginString ∨ s.step = .beginValue)
    (t : List Char) : s.run (']' :: t) = none := by
  obtain ⟨step, st⟩ := s
  rcases hs with h1 | h1
  · simp only at h1
    subst h1
    simp [scanner.run, scanner.next, stateBeginString, isSpace]
  · simp only at h1
    subst h1
    simp [scanner.run, scanner.next, stateBeginValue, isSpace]

/-- From no state does the scanner get past a string's closing quote followed by two closing
braces, a comma and a closing bracket, with white space between them. -/
theorem run_trailing_comma (s : scanner) (w1 w2 w3 t : List Char)
    (h1 : ∀ c ∈ w1, isSpace c = true) (h2 : ∀ c ∈ w2, isSpace c = true)
    (h3 : ∀ c ∈ w3, isSpace c = true) :
    s.run ('"' :: '\n' :: (w1 ++ '\x7d' :: (w2 ++ '\x7d' :: ',' :: (w3 ++ ']' :: t)))) = none := by
  rcases run_quote_newline s (w1 ++ '\x7d' :: (w2 ++ '\x7d' :: ',' :: (w3 ++ ']' :: t)))
    with h | ⟨s1, hs1, h⟩
  · exact h
  rw [h, run_space s1 (hs1.imp_right Or.inl) w1 _ h1]
  rcases run_close_brace s1 hs1 (w2 ++ '\x7d' :: ',' :: (w3 ++ ']' :: t)) with h | ⟨s2, hs2, h⟩
  · exact h
  rw [h, run_space s2 (hs2.imp_right Or.inl) w2 _ h2]
  rcases run_close_brace s2 hs2 (',' :: (w3 ++ ']' :: t)) with h | ⟨s3, hs3, h⟩
  · exact h
  rw [h]
  rcases run_comma s3 hs3 (w3 ++ ']' :: t) with h | ⟨s4, hs4, h⟩
  · exact h
  rw [h, run_space s4 (Or.inr (Or.inr hs4)) w3 _ h3]
  exact run_close_bracket s4 hs4 t

/-- A text that contains a string's closing quote followed by two closing braces, a comma and
a closing bracket is not a JSON document, whatever stands before and after. -/
theorem not_Valid_of_trailing_comma (m : String) (pre w1 w2 w3 t : List Char)
    (h1 : ∀ c ∈ w1, isSpace c = true) (h2 : ∀ c ∈ w2, isSpace c = true)
    (h3 : ∀ c ∈ w3, isSpace c = true)
    (hm : m.data
      = pre ++ '"' :: '\n' :: (w1 ++ '\x7d' :: (w2 ++ '\x7d' :: ',' :: (w3 ++ ']' :: t)))) :
    Valid m = false := by
  have hrun : scanner.run ⟨.beginValue, []⟩ m.data = none := by
    rw [hm, run_append]
    cases scanner.run ⟨.beginValue, []⟩ pre with
    | none => rfl
    | some s => exact run_trailing_comma s w1 w2 w3 t h1 h2 h3
  simp only [Valid, hrun]

theorem seg2_trailing_comma :
    ∃ tail, (seg 2).data
      = '"' :: '\n' :: (List.replicate 28 ' ' ++ '\x7d' :: (('\n' :: List.replicate 24 ' ')
          ++ '\x7d' :: ',' :: (('\n' :: List.replicate 20 ' ') ++ ']' :: tail))) :=
  ⟨(seg 2).data.drop 80, by decide!⟩

/-- For every zone and incident the rendered message is not a valid JSON document: after the
formatted timestamp the template closes the string, the `textParagraph` object and the widget
object, and then has a comma right before the bracket that closes the `widgets` array. -/
theorem rendered_not_Valid (loc : Location) (inc : incident) :
    Valid (rendered loc inc) = false := by
  obtain ⟨tail, h⟩ := seg2_trailing_comma
  refine not_Valid_of_trailing_comma (rendered loc inc)
    (seg 0 ++ inc.PolicyName ++ seg 1 ++ Time.Format loc inc.StartedAt).data
    (List.replicate 28 ' ') ('\n' :: List.replicate 24 ' ') ('\n' :: List.replicate 20 ' ')
    (tail ++ (inc.Documentation.Content ++ seg 3 ++ inc.State ++ seg 4 ++ inc.Url ++ seg 5).data)
    (by decide) (by decide) (by decide) ?_
  simp only [rendered, String.data_append, h, List.append_assoc, List.cons_append]

/-- C3 fails on the code: whenever the envelope and the payload decode, the one POST of the
handler has content type `application/json` and the rendered message as its body, and that
body is not a valid JSON document, for every zone and every incident (so also for values
without any quote, backslash or control character). -/
theorem posted_body_is_not_valid_json {Event Response : Type} (rt : Runtime Event Response)
    (e : Event) (msg : messageData) (pld : messagePayload) (h1 : rt.DataAs e = .ok msg)
    (h2 : rt.UnmarshalPayload msg.Message.Data = .ok pld) :
    ∃ m, formatMessage MESSAGE_TEMPLATE (argsList rt.Local pld.Incident) = some m
      ∧ posts (googleChatAlert rt e).calls = [("<YOUR WEBHOOK URL>", "application/json", m)]
      ∧ Valid m = false :=
  ⟨_, formatMessage_argsList rt.Local pld.Incident,
    googleChatAlert_posts_of_decoded rt e msg pld h1 h2,
    rendered_not_Valid rt.Local pld.Incident⟩

theorem posted_body_is_not_valid_json_witness :
    ∃ m, formatMessage MESSAGE_TEMPLATE (argsList UTC cpuHigh) = some m
      ∧ posts (googleChatAlert (answering UTC ⟨cpuHigh⟩ "" (.ok ⟨⟨0, "", ""⟩⟩)) ()).calls
          = [("<YOUR WEBHOOK URL>", "application/json", m)]
      ∧ Valid m = false :=
  posted_body_is_not_valid_json (answering UTC ⟨cpuHigh⟩ "" (.ok ⟨⟨0, "", ""⟩⟩)) ()
    ⟨⟨"payload"⟩⟩ ⟨cpuHigh⟩ rfl rfl

/-- The comma at index `trailingComma` of the template stands between the only widget of the
first section and the bracket that closes its `widgets` array: neither the template nor the
message rendered for the incident `CPU High` is a valid JSON document, the template without
that comma is one, and rendering the template without it yields a valid document for
`CPU High` and an invalid one for the policy name `CPU "High"`, whose quotes are copied
without escaping. -/
theorem template_trailing_comma :
    MESSAGE_TEMPLATE.data.get? trailingComma = some ','
    ∧ (MESSAGE_TEMPLATE.data.drop (trailingComma + 1)).take 22
        = "\n                    ]".data
    ∧ Valid MESSAGE_TEMPLATE = false
    ∧ (formatMessage MESSAGE_TEMPLATE (argsList UTC cpuHigh)).map Valid = some false
    ∧ Valid templateWithoutTrailingComma = true
    ∧ (formatMessage templateWithoutTrailingComma (argsList UTC cpuHigh)).map Valid = some true
    ∧ (formatMessage templateWithoutTrailingComma (argsList UTC quotedPolicy)).map Valid
        = some false := by
  decide!

/-! ## The `%v` text of an integer -/

theorem digitChar_eq (d : Nat) : digitChar d = Nat.digitChar (d % 10) := by
  have hlt : d % 10 < 10 := Nat.mod_lt _ (by decide)
  unfold digitChar
  generalize d % 10 = m at hlt
  interval_cases m <;> rfl

theorem decimalAux_eq_toDigitsCore (fuel u : Nat) (acc : List Char) :
    decimalAux fuel u acc = Nat.toDigitsCore 10 fuel u acc := by
  induction fuel generalizing u acc with
  | zero => rfl
  | succ fuel ih =>
    rw [decimalAux, Nat.toDigitsCore, digitChar_eq]
    by_cases h : u < 10
    · have h0 : u / 10 = 0 := Nat.div_eq_of_lt h
      simp only [h, h0, if_true]
    · have h0 : ¬ u / 10 = 0 := by omega
      simp only [h, h0, if_false]
      exact ih _ _

theorem decimal_eq_repr (u : Nat) : decimal u = (toString u).data := by
  rw [decimal, decimalAux_eq_toDigitsCore]
  rfl

/-- The text `fmtInt` prints is the decimal form of the integer. -/
theorem fmtInt_eq_toString (x : Int) : fmtInt x = toString x := by
  apply String.ext
  cases x with
  | ofNat m =>
    have hneg : ¬ (Int.ofNat m < 0) := by simp
    simp only [fmtInt, appendInt, hneg, if_false, Nat.zero_sub, List.replicate_zero,
      List.nil_append, Int.natAbs_ofNat, decimal_eq_repr]
    rfl
  | negSucc m =>
    have hneg : Int.negSucc m < 0 := Int.negSucc_lt_zero m
    simp only [fmtInt, appendInt, hneg, if_true, Nat.zero_sub, List.replicate_zero,
      List.append_nil, Int.natAbs_negSucc, decimal_eq_repr]
    rfl

/-- C5: once the webhook response has been parsed, the handler returns nil exactly when the
parsed error object is the zero value, and fails exactly when its code is not 0 or its message
or its status is not empty; the error it then returns is
`received an error response from Google Chat: ` followed by two opening braces, the code
in decimal, a blank, the message, a blank, the status and two closing braces. -/
theorem remote_error_iff_error_object_nonzero {Event Response : Type}
    (rt : Runtime Event Response) (e : Event) (msg : messageData) (pld : messagePayload)
    (message : String) (res : Response) (resBody : String) (googleChatRes : googleChatResponse)
    (h1 : rt.DataAs e = .ok msg) (h2 : rt.UnmarshalPayload msg.Message.Data = .ok pld)
    (h3 : formatMessage MESSAGE_TEMPLATE (argsList rt.Local pld.Incident) = some message)
    (h4 : rt.Post "<YOUR WEBHOOK URL>" "application/json" message = .ok res)
    (h5 : rt.ReadAll res = .ok resBody)
    (h6 : rt.UnmarshalResponse resBody = .ok googleChatRes) :
    ((googleChatAlert rt e).outcome = .nil ↔ googleChatRes.Error = ⟨0, "", ""⟩)
    ∧ ((∃ text, (googleChatAlert rt e).outcome = .error text)
        ↔ googleChatRes.Error.Code ≠ 0 ∨ googleChatRes.Error.Message ≠ ""
          ∨ googleChatRes.Error.Status ≠ "")
    ∧ (googleChatRes.Error ≠ ⟨0, "", ""⟩ →
        (googleChatAlert rt e).outcome
          = .error ("received an error response from Google Chat: " ++ "\x7b\x7b"
              ++ toString googleChatRes.Error.Code ++ " " ++ googleChatRes.Error.Message ++ " "
              ++ googleChatRes.Error.Status ++ "\x7d\x7d")) := by
  have hout := googleChatAlert_of_parsed rt e msg pld message res resBody h1 h2 h3 h4 h5
  rw [h6] at hout
  simp only at hout
  obtain ⟨⟨code, text, status⟩⟩ := googleChatRes
  by_cases hz : (⟨code, text, status⟩ : googleChatError) = ⟨0, "", ""⟩
  · rw [if_neg (not_not.mpr hz)] at hout
    have hz' := hz
    simp only [googleChatError.mk.injEq] at hz'
    obtain ⟨hc, hm, hs⟩ := hz'
    refine ⟨⟨fun _ => hz, fun _ => hout⟩, ⟨?_, ?_⟩, fun h => absurd hz h⟩
    · rintro ⟨t, ht⟩
      rw [hout] at ht
      exact absurd ht (by simp)
    · rintro (h | h | h)
      · exact absurd hc h
      · exact absurd hm h
      · exact absurd hs h
  · rw [if_pos hz] at hout
    refine ⟨⟨fun h => ?_, fun h => absurd h hz⟩, ⟨fun _ => ?_, fun _ => ⟨_, hout⟩⟩, fun _ => ?_⟩
    · rw [hout] at h
      exact absurd h (by simp)
    · by_contra hcon
      simp only [not_or, not_not] at hcon
      apply hz
      simp only [googleChatError.mk.injEq]
      exact hcon
    · rw [hout, fmtResponse, fmtInt_eq_toString]
      simp only [String.append_assoc]

theorem remote_error_iff_error_object_nonzero_witness :
    (googleChatAlert (answering UTC ⟨cpuHigh⟩ "" (.ok ⟨⟨400, "bad", "INVALID"⟩⟩)) ()).outcome
        = .error "received an error response from Google Chat: \x7b\x7b400 bad INVALID\x7d\x7d"
    ∧ (googleChatAlert (answering UTC ⟨cpuHigh⟩ "" (.ok ⟨⟨400, "bad", "INVALID"⟩⟩)) ()).outcome
        ≠ .nil
    ∧ (googleChatAlert (answering UTC ⟨cpuHigh⟩ "" (.ok ⟨⟨0, "", ""⟩⟩)) ()).outcome = .nil :=
  ⟨((remote_error_iff_error_object_nonzero
      (answering UTC ⟨cpuHigh⟩ "" (.ok ⟨⟨400, "bad", "INVALID"⟩⟩)) () ⟨⟨"payload"⟩⟩ ⟨cpuHigh⟩
      (rendered UTC cpuHigh) () "" ⟨⟨400, "bad", "INVALID"⟩⟩ rfl rfl
      (formatMessage_argsList UTC cpuHigh) rfl rfl rfl).2.2 (by decide)).trans (by decide),
    fun hnil => absurd ((remote_error_iff_error_object_nonzero
      (answering UTC ⟨cpuHigh⟩ "" (.ok ⟨⟨400, "bad", "INVALID"⟩⟩)) () ⟨⟨"payload"⟩⟩ ⟨cpuHigh⟩
      (rendered UTC cpuHigh) () "" ⟨⟨400, "bad", "INVALID"⟩⟩ rfl rfl
      (formatMessage_argsList UTC cpuHigh) rfl rfl rfl).1.mp hnil) (by decide),
    (remote_error_iff_error_object_nonzero
      (answering UTC ⟨cpuHigh⟩ "" (.ok ⟨⟨0, "", ""⟩⟩)) () ⟨⟨"payload"⟩⟩ ⟨cpuHigh⟩
      (rendered UTC cpuHigh) () "" ⟨⟨0, "", ""⟩⟩ rfl rfl
      (formatMessage_argsList UTC cpuHigh) rfl rfl rfl).1.mpr rfl⟩

set_option maxRecDepth 100000 in
theorem remote_error_examples :
    (googleChatAlert (answering UTC ⟨cpuHigh⟩ "" (.ok ⟨⟨0, "", ""⟩⟩)) ()).outcome = .nil
    ∧ (googleChatAlert (answering UTC ⟨cpuHigh⟩ "" (.ok ⟨⟨400, "bad", "INVALID"⟩⟩)) ()).outcome
        = .error "received an error response from Google Chat: \x7b\x7b400 bad INVALID\x7d\x7d"
    ∧ (googleChatAlert (answering UTC ⟨cpuHigh⟩ "" (.ok ⟨⟨-7, "", ""⟩⟩)) ()).outcome
        = .error "received an error response from Google Chat: \x7b\x7b-7  \x7d\x7d" := by
  decide!

/-- C6: when the envelope cannot be decoded (`e.DataAs` fails) or the payload does not parse
(`json.Unmarshal` fails), the handler returns an error that carries the decode or parse error,
and it has made no network call: no HTTP POST. -/
theorem decode_failure_returns_before_post {Event Response : Type}
    (rt : Runtime Event Response) (e : Event)
    (h : (∃ err, rt.DataAs e = .error err)
      ∨ ∃ msg err, rt.DataAs e = .ok msg ∧ rt.UnmarshalPayload msg.Message.Data = .error err) :
    (∃ err, (googleChatAlert rt e).outcome = .error ("failed to retrieve PubSub message: " ++ err)
        ∨ (googleChatAlert rt e).outcome
            = .error ("failed to parse PubSub msg payload: " ++ err))
    ∧ (googleChatAlert rt e).calls = [] ∧ posts (googleChatAlert rt e).calls = [] := by
  rcases h with ⟨err, h1⟩ | ⟨msg, err, h1, h2⟩
  · have hrun : googleChatAlert rt e
        = ⟨[], .error ("failed to retrieve PubSub message: " ++ err)⟩ := by
      simp only [googleChatAlert, h1]
    rw [hrun]
    exact ⟨⟨err, Or.inl rfl⟩, rfl, rfl⟩
  · have hrun : googleChatAlert rt e
        = ⟨[], .error ("failed to parse PubSub msg payload: " ++ err)⟩ := by
      simp only [googleChatAlert, h1, h2]
    rw [hrun]
    exact ⟨⟨err, Or.inr rfl⟩, rfl, rfl⟩

theorem decode_failure_returns_before_post_witness :
    ((∃ err, undecodable.DataAs () = .error err)
      ∨ ∃ msg err, undecodable.DataAs () = .ok msg
        ∧ undecodable.UnmarshalPayload msg.Message.Data = .error err)
    ∧ (∃ err, (googleChatAlert undecodable ()).outcome
          = .error ("failed to retrieve PubSub message: " ++ err)
        ∨ (googleChatAlert undecodable ()).outcome
            = .error ("failed to parse PubSub msg payload: " ++ err))
    ∧ (googleChatAlert undecodable ()).calls = []
    ∧ posts (googleChatAlert undecodable ()).calls = [] :=
  ⟨Or.inl ⟨_, rfl⟩, decode_failure_returns_before_post undecodable () (Or.inl ⟨_, rfl⟩)⟩

/-- C7: when the body of the webhook response does not parse, the handler fails with the
error `failed to unmarshal google chat response: <err>, received: <body>`, in which the raw
response body occurs unmodified. -/
theorem response_parse_error_carries_body {Event Response : Type}
    (rt : Runtime Event Response) (e : Event) (msg : messageData) (pld : messagePayload)
    (message : String) (res : Response) (resBody err : String)
    (h1 : rt.DataAs e = .ok msg) (h2 : rt.UnmarshalPayload msg.Message.Data = .ok pld)
    (h3 : formatMessage MESSAGE_TEMPLATE (argsList rt.Local pld.Incident) = some message)
    (h4 : rt.Post "<YOUR WEBHOOK URL>" "application/json" message = .ok res)
    (h5 : rt.ReadAll res = .ok resBody)
    (h6 : rt.UnmarshalResponse resBody = .error err) :
    ∃ text, (googleChatAlert rt e).outcome = .error text
      ∧ text = "failed to unmarshal google chat response: " ++ err ++ ", received: " ++ resBody
      ∧ occursIn resBody text := by
  have hout := googleChatAlert_of_parsed rt e msg pld message res resBody h1 h2 h3 h4 h5
  rw [h6] at hout
  refine ⟨_, hout, rfl, ?_⟩
  simp only [occursIn, String.data_append]
  exact (List.suffix_append _ _).isInfix

theorem response_parse_error_carries_body_witness :
    ∃ text,
      (googleChatAlert (answering UTC ⟨cpuHigh⟩ "<html>busy</html>"
        (.error "invalid character '<' looking for beginning of value")) ()).outcome
        = .error text
      ∧ text = "failed to unmarshal google chat response: "
          ++ "invalid character '<' looking for beginning of value" ++ ", received: "
          ++ "<html>busy</html>"
      ∧ occursIn "<html>busy</html>" text :=
  response_parse_error_carries_body
    (answering UTC ⟨cpuHigh⟩ "<html>busy</html>"
      (.error "invalid character '<' looking for beginning of value")) () ⟨⟨"payload"⟩⟩
    ⟨cpuHigh⟩ (rendered UTC cpuHigh) () "<html>busy</html>"
    "invalid character '<' looking for beginning of value" rfl rfl
    (formatMessage_argsList UTC cpuHigh) rfl rfl rfl

end GoogleChatAlert
